import Mathlib

/-!
Shallow embedding of the core computational logic of `napari-synaptogram`
(`src/napari_synaptogram/_widget.py`): the region-masking engine
(`CtBP2Detection._mask`, lines 94-143) and the ray intensity maximizer
(`CtBP2Detection._mouse_click`, lines 185-216).

Conventions of the embedding:
* machine floats become exact rationals (`ℚ`); the integer voxel grid is `ℕ`;
* a 3D array index is a function `Fin 3 → ℕ`, a 3D coordinate `Fin 3 → ℚ`;
* library calls made by the widget (`numpy.std`, `numpy.flatnonzero`,
  `numpy.linspace`, `numpy.argmax`, `skimage.draw.polygon2mask`,
  `scipy.ndimage.map_coordinates`) are embedded with their library semantics,
  documented at each definition;
* a Python exception or early-return rejection becomes an `Except` error /
  a distinguished outcome constructor.
-/

namespace Synaptogram

/-- A 3D integer voxel index (one entry per volume axis). -/
abbrev Ix : Type := Fin 3 → ℕ

/-- A 3D fractional coordinate (one entry per volume axis). -/
abbrev Pt3 : Type := Fin 3 → ℚ

/-- A volumetric image layer's data: per-axis extent (`shape`), per-axis voxel
size (`scale`), and the scalar intensity grid (`data`, total as a function;
only indices below `shape` are meaningful). This embeds the `layer.data`
array together with the `scale` attribute that `_mask` copies onto the masked
layer (`_widget.py` line 112). -/
structure Volume where
  shape : Fin 3 → ℕ
  scale : Fin 3 → ℚ
  data : Ix → ℚ

/-- A polygon as napari hands it to `_mask`: an ordered list of 3D vertices
(`roi_layer.data` entries are `(N, 3)` float arrays). -/
abbrev Poly : Type := List Pt3

/-- `polygon.std(axis=0)` is nonzero at axis `a` exactly when not all vertices
share the same coordinate along `a` (exact-arithmetic reading of a nonzero
standard deviation). An empty vertex list varies along no axis. -/
def varies (p : Poly) (a : Fin 3) : Bool :=
  match p with
  | [] => false
  | v :: vs => vs.any (fun w => w a != v a)

/-- `np.flatnonzero(polygon.std(axis=0))` (`_widget.py` line 133): the axes
along which the polygon's vertices vary, in increasing axis order. -/
def activeAxes (p : Poly) : List (Fin 3) :=
  (List.finRange 3).filter (fun a => varies p a)

/-- One edge of the closed polygon contributes a *right* crossing for the query
point `(r, c)` (row `r`, column `c`) when the edge straddles the horizontal
line through the point and crosses it strictly to the right. This is the
`r_cross` accumulation of scikit-image's `point_in_polygon` (O'Rourke
crossings test); the division is guarded by the straddle condition, so the
denominator is nonzero whenever the test is reached. -/
def edgeRCross (r c : ℚ) (e : (ℚ × ℚ) × (ℚ × ℚ)) : Bool :=
  let y0 := e.1.1 - r
  let x0 := e.1.2 - c
  let y1 := e.2.1 - r
  let x1 := e.2.2 - c
  (decide (y1 > 0) != decide (y0 > 0)) &&
    decide ((x1 * y0 - x0 * y1) / (y0 - y1) > 0)

/-- The `l_cross` (strictly-left crossing) counterpart of `edgeRCross`. -/
def edgeLCross (r c : ℚ) (e : (ℚ × ℚ) × (ℚ × ℚ)) : Bool :=
  let y0 := e.1.1 - r
  let x0 := e.1.2 - c
  let y1 := e.2.1 - r
  let x1 := e.2.2 - c
  (decide (y1 < 0) != decide (y0 < 0)) &&
    decide ((x1 * y0 - x0 * y1) / (y0 - y1) < 0)

/-- The closed edge cycle of a vertex list: `(v0,v1), (v1,v2), …, (v(n-1),v0)`. -/
def closedEdges (verts : List (ℚ × ℚ)) : List ((ℚ × ℚ) × (ℚ × ℚ)) :=
  verts.zip (verts.rotate 1)

/-- scikit-image's `point_in_polygon` test at grid point `(r, c)` against a
polygon given as `(row, col)` vertex pairs: count strictly-right and
strictly-left horizontal crossings over the closed edge cycle; the point is
filled when the right count is odd (strict interior) or the two parities
disagree (the boundary case, which `point_in_polygon` reports as `2` and the
rasterizer treats as truthy/filled). -/
def pointInPolygon (verts : List (ℚ × ℚ)) (r c : ℚ) : Bool :=
  let es := closedEdges verts
  let rc := (es.filter (edgeRCross r c)).length
  let lc := (es.filter (edgeLCross r c)).length
  decide (rc % 2 = 1) || decide (lc % 2 = 1)

/-- `skimage.draw.polygon2mask((s0, s1), vertices)` read as a predicate on grid
points: `mask[r][c]` is true when `(r, c)` lies in the image (`r < s0`,
`c < s1`) and passes the point-in-polygon test. The bounding-box loop of
`skimage.draw.polygon` is a pure optimisation: a grid point outside the
vertex bounding box fails the crossings test anyway. -/
def polygon2mask (s0 s1 : ℕ) (verts : List (ℚ × ℚ)) (r c : ℕ) : Bool :=
  decide (r < s0) && decide (c < s1) && pointInPolygon verts (r : ℚ) (c : ℚ)

/-- The broadcast 3D mask of one polygon with active axes `a0 < a1`
(`_widget.py` lines 134-139): project the vertices onto `(a0, a1)`
(`polygon[:, axes]`), rasterize against the 2D shape `(shape a0, shape a1)`
(`np.take(shape, axes)` and `polygon2mask`), and index the 2D footprint by
the active-axis components of the 3D index — exactly what the
`[broadcast]` tuple of `slice(None)` / `np.newaxis` does under numpy
broadcasting. -/
def polyMask (shape : Fin 3 → ℕ) (p : Poly) (a0 a1 : Fin 3) : Ix → Bool :=
  fun i =>
    polygon2mask (shape a0) (shape a1) (p.map (fun v => (v a0, v a1)))
      (i a0) (i a1)

/-- Failure of the masking engine. The Python code has no named error class:
for a polygon whose active-axis count is not 2, `polygon2mask`'s unpacking
of the vertex columns (`vertex_row_coords, vertex_col_coords = polygon.T`)
raises a `ValueError`. The spec's error taxonomy names this condition
`InvalidPolygonAxes`; the embedding uses that name for the failure. -/
inductive MaskErr : Type where
  | invalidPolygonAxes : MaskErr
deriving DecidableEq

/-- Process one polygon of the ROI: infer the active axes; with exactly two,
produce the broadcast 3D mask, otherwise fail (see `MaskErr`). -/
def maskPolygon (shape : Fin 3 → ℕ) (p : Poly) : Except MaskErr (Ix → Bool) :=
  match activeAxes p with
  | [a0, a1] => .ok (polyMask shape p a0 a1)
  | _ => .error .invalidPolygonAxes

/-- The polygon loop of `_mask` (`_widget.py` lines 131-140): starting from a
copy of the source data, multiply the working buffer pointwise by each
polygon's broadcast mask in sequence (`layer_data = layer_data * mask`). -/
def maskData (shape : Fin 3 → ℕ) (R : List Poly) (d : Ix → ℚ) :
    Except MaskErr (Ix → ℚ) :=
  match R with
  | [] => .ok d
  | p :: ps =>
    match maskPolygon shape p with
    | .error e => .error e
    | .ok m => maskData shape ps (fun i => d i * (if m i then 1 else 0))

/-- The masking engine: from a source volume and the ROI's polygon list,
produce the masked volume written to the masked layer (`masked_layer.data =
layer_data`, `_widget.py` line 142). The working buffer starts as a copy of
the *source* layer's data (`layer.data.copy()`, line 129); the masked layer
keeps the source's shape and scale (lines 109-121). -/
def maskVolume (V : Volume) (R : List Poly) : Except MaskErr Volume :=
  match maskData V.shape R V.data with
  | .error e => .error e
  | .ok d => .ok { shape := V.shape, scale := V.scale, data := d }

/-- The rational indicator of one polygon's broadcast mask (1 inside the
footprint's projection, 0 outside); 1 for a polygon with invalid axes, where
the engine fails before multiplying. -/
def maskInd (shape : Fin 3 → ℕ) (p : Poly) (i : Ix) : ℚ :=
  match activeAxes p with
  | [a0, a1] => if polyMask shape p a0 a1 i then 1 else 0
  | _ => 1

/-- The combined mask of a polygon list at a voxel: the pointwise product of
the per-polygon indicators (`maskInd`). -/
def combinedMask (shape : Fin 3 → ℕ) (R : List Poly) (i : Ix) : ℚ :=
  (R.map (fun p => maskInd shape p i)).prod

/-- The source-to-masked association maintained by the widget for one image
layer (`self._roi_map`): the source layer's volume and the (optional) masked
layer's volume. -/
structure LayerState where
  source : Volume
  masked : Option Volume

/-- One invocation of the mask button for one image layer: recompute the
masked volume from the *source* data and store it on the masked layer. On
failure (`MaskErr`), the Python exception propagates before line 142 assigns
`masked_layer.data`, so the state is left as it was. -/
def applyMask (R : List Poly) (s : LayerState) : LayerState :=
  match maskVolume s.source R with
  | .ok w => { source := s.source, masked := some w }
  | .error _ => s

/-- `np.linspace(near, far, n)` with the default `endpoint=True`
(`_widget.py` line 207), componentwise over 3D points: `n` samples
`near + i * (far - near)/(n-1)`. (numpy additionally overwrites the last
sample with `far`; over `ℚ` the formula already yields `far` exactly at
`i = n-1`.) -/
def linspace (a b : Pt3) (n : ℕ) : List Pt3 :=
  (List.range n).map
    (fun (k : ℕ) => fun ax => a ax + (k : ℚ) * ((b ax - a ax) / ((n : ℚ) - 1)))

/-- The in-extent test of `scipy.ndimage.map_coordinates` with
`mode="constant"`: a coordinate contributes interpolated data only when every
component lies in `[0, shape-1]`; outside that extent no interpolation is
performed and the output is `cval`. -/
def inBounds (shape : Fin 3 → ℕ) (c : Pt3) : Bool :=
  (List.finRange 3).all
    (fun a => decide (0 ≤ c a) && decide (c a ≤ (shape a : ℚ) - 1))

/-- Multilinear interpolation of the grid at an in-extent fractional
coordinate: the weighted blend of the 8 surrounding grid samples. The widget
calls `scipy.ndimage.map_coordinates` with its default spline order; the
interior interpolation kernel is embedded at order 1 (trilinear, the order
the spec names as sufficient). The claims settled below depend only on the
constant-zero treatment outside the extent and on the argmax over whatever
intensities result, never on the interior kernel's coefficients. -/
def trilinear (V : Volume) (c : Pt3) : ℚ :=
  let lo : Fin 3 → ℤ := fun a => ⌊c a⌋
  let t : Fin 3 → ℚ := fun a => c a - (lo a : ℚ)
  List.sum <|
    (List.range 2).flatMap fun d0 =>
      (List.range 2).flatMap fun d1 =>
        (List.range 2).map fun d2 =>
          let dl : Fin 3 → ℕ := ![d0, d1, d2]
          let w : ℚ := ∏ a : Fin 3, (if dl a = 1 then t a else 1 - t a)
          w * V.data (fun a => (lo a + (dl a : ℤ)).toNat)

/-- `scipy.ndimage.map_coordinates(data, c, mode="constant", cval=0)` at one
coordinate (`_widget.py` lines 208-213): interpolate inside the extent,
constant 0 outside — no wrapping, no mirroring, no clamping, no error. -/
def sampleIntensity (V : Volume) (c : Pt3) : ℚ :=
  if inBounds V.shape c then trilinear V c else 0

/-- One step of `np.argmax`'s scan: keep the current best index unless the
candidate's value is strictly greater (so the first occurrence of the
maximum is retained). -/
def argmaxStep (l : List ℚ) (b j : ℕ) : ℕ :=
  if l.getD b 0 < l.getD j 0 then j else b

/-- `np.argmax` (`_widget.py` line 214): scan the indices in order, replacing
the running best only on a strict improvement; the first index attaining the
maximum wins. -/
def argmax (l : List ℚ) : ℕ :=
  (List.range l.length).foldl (argmaxStep l) 0

/-- The outcome of one click dispatched to `_mouse_click`: the handler returns
without effect (2D display, or the layer's add tool inactive); it rejects
the click because the viewing ray misses the layer's bounding box (a `None`
endpoint — the spec's `InvalidRay` condition); or it appends the intensity
argmax coordinate to the points layer. -/
inductive ClickOutcome : Type where
  | ignored : ClickOutcome
  | invalidRay : ClickOutcome
  | added : Pt3 → ClickOutcome

/-- `CtBP2Detection._mouse_click` (`_widget.py` lines 185-216): given the
viewer's display dimensionality, the points layer's mode, the image volume,
the ray-bounding-box intersections (each possibly `None`, as returned by
`get_ray_intersections`), and the points layer's current data, produce the
outcome and the new points data. On the valid-ray path: sample 100 positions
from near to far, interpolate the intensities with constant-zero boundary,
and append the sample of maximum intensity. -/
def mouseClick (ndisplay : ℕ) (mode : String) (V : Volume)
    (near far : Option Pt3) (points : List Pt3) : ClickOutcome × List Pt3 :=
  if ndisplay = 2 then (.ignored, points)
  else if mode ≠ "add" then (.ignored, points)
  else
    match near, far with
    | some n, some f =>
      let ray := linspace n f 100
      let intensities := ray.map (sampleIntensity V)
      let coords := ray.getD (argmax intensities) (fun _ => 0)
      (.added coords, points ++ [coords])
    | _, _ => (.invalidRay, points)

deriving instance DecidableEq for Except

/-! ### Concrete instances used by witnesses and the counterexample -/

/-- A concrete 3×10×10 volume of constant intensity 5. -/
def vC : Volume := { shape := ![3, 10, 10], scale := ![1, 1, 1], data := fun _ => 5 }

/-- A square polygon in the plane `axis0 = 1`, footprint corners `(1,1)` to
`(4,4)` on axes 1 and 2. -/
def polyA : Poly := [![1, 1, 1], ![1, 1, 4], ![1, 4, 4], ![1, 4, 1]]

/-- A square polygon in the same plane `axis0 = 1`, footprint corners `(6,6)`
to `(9,9)` on axes 1 and 2 — disjoint from `polyA`'s footprint. -/
def polyB : Poly := [![1, 6, 6], ![1, 6, 9], ![1, 9, 9], ![1, 9, 6]]

/-- A voxel strictly inside `polyA`'s footprint and outside `polyB`'s. -/
def cIx : Ix := ![1, 2, 2]

/-- A degenerate polygon whose vertices vary along all three axes. -/
def polyD : Poly := [![0, 0, 0], ![1, 1, 0], ![2, 0, 1]]

/-- A concrete near ray endpoint. -/
def nearW : Pt3 := ![0, 0, 0]

/-- A concrete far ray endpoint; its axis-1 extent leaves `vC`'s bounds. -/
def farW : Pt3 := ![2, 18, 9]

/-- A concrete coordinate outside `vC`'s extent along axis 0. -/
def outPt : Pt3 := ![-1, 0, 0]

/-! ### Lemmas about the masking engine -/

/-- A polygon whose active-axis count is not 2 makes `maskPolygon` fail. -/
theorem maskPolygon_err (shape : Fin 3 → ℕ) (p : Poly)
    (h : (activeAxes p).length ≠ 2) :
    maskPolygon shape p = .error .invalidPolygonAxes := by
  unfold maskPolygon
  cases hax : activeAxes p with
  | nil => rfl
  | cons a l =>
    cases l with
    | nil => rfl
    | cons b l' =>
      cases l' with
      | nil => exact absurd (by simp [hax]) h
      | cons c l'' => rfl

/-- A polygon with exactly the active axes `[a0, a1]` makes `maskPolygon`
return its broadcast mask. -/
theorem maskPolygon_ok (shape : Fin 3 → ℕ) (p : Poly) (a0 a1 : Fin 3)
    (hax : activeAxes p = [a0, a1]) :
    maskPolygon shape p = .ok (polyMask shape p a0 a1) := by
  unfold maskPolygon
  rw [hax]

/-- Under the same hypothesis, the rational indicator of the polygon's mask. -/
theorem maskInd_eq (shape : Fin 3 → ℕ) (p : Poly) (a0 a1 : Fin 3) (i : Ix)
    (hax : activeAxes p = [a0, a1]) :
    maskInd shape p i = (if polyMask shape p a0 a1 i then 1 else 0) := by
  unfold maskInd
  rw [hax]

/-- Unfolding the polygon loop one polygon at a time. -/
theorem maskData_cons (shape : Fin 3 → ℕ) (p : Poly) (ps : List Poly)
    (d : Ix → ℚ) :
    maskData shape (p :: ps) d =
      match maskPolygon shape p with
      | .error e => .error e
      | .ok m => maskData shape ps (fun i => d i * (if m i then 1 else 0)) :=
  rfl

/-- A valid head polygon: the loop multiplies its mask in and continues. -/
theorem maskData_cons_ok (shape : Fin 3 → ℕ) (p : Poly) (ps : List Poly)
    (a0 a1 : Fin 3) (hax : activeAxes p = [a0, a1]) (d : Ix → ℚ) :
    maskData shape (p :: ps) d =
      maskData shape ps
        (fun i => d i * (if polyMask shape p a0 a1 i then 1 else 0)) := by
  rw [maskData_cons, maskPolygon_ok shape p a0 a1 hax]

/-- The combined mask of a cons region factors into head times tail. -/
theorem combinedMask_cons (shape : Fin 3 → ℕ) (p : Poly) (ps : List Poly)
    (i : Ix) :
    combinedMask shape (p :: ps) i =
      maskInd shape p i * combinedMask shape ps i := by
  unfold combinedMask
  rw [List.map_cons, List.prod_cons]

/-- The polygon loop on a region of valid polygons: the resulting buffer is the
input buffer times the pointwise product of the per-polygon mask indicators. -/
theorem maskData_eq (shape : Fin 3 → ℕ) (R : List Poly)
    (h : ∀ p ∈ R, (activeAxes p).length = 2) :
    ∀ d : Ix → ℚ,
      maskData shape R d = .ok (fun i => d i * combinedMask shape R i) := by
  induction R with
  | nil =>
    intro d
    unfold maskData combinedMask
    simp
  | cons p ps ih =>
    intro d
    obtain ⟨a0, a1, hax⟩ :=
      List.length_eq_two.mp (h p (List.mem_cons_self p ps))
    have hps : ∀ q ∈ ps, (activeAxes q).length = 2 :=
      fun q hq => h q (List.mem_cons_of_mem p hq)
    rw [maskData_cons_ok shape p ps a0 a1 hax d,
      ih hps (fun i => d i * (if polyMask shape p a0 a1 i then 1 else 0))]
    congr 1
    funext i
    rw [combinedMask_cons, maskInd_eq shape p a0 a1 i hax]
    ring

/-- The polygon loop fails whenever it reaches a polygon with an invalid
active-axis count (all earlier polygons being valid). -/
theorem maskData_err (shape : Fin 3 → ℕ) (R₁ R₂ : List Poly) (p : Poly)
    (hp : (activeAxes p).length ≠ 2)
    (h1 : ∀ q ∈ R₁, (activeAxes q).length = 2) :
    ∀ d : Ix → ℚ,
      maskData shape (R₁ ++ p :: R₂) d = .error .invalidPolygonAxes := by
  induction R₁ with
  | nil =>
    intro d
    rw [List.nil_append, maskData_cons, maskPolygon_err shape p hp]
  | cons q R₁' ih =>
    intro d
    obtain ⟨a0, a1, hax⟩ :=
      List.length_eq_two.mp (h1 q (List.mem_cons_self q R₁'))
    rw [List.cons_append, maskData_cons_ok shape q _ a0 a1 hax d]
    exact ih (fun r hr => h1 r (List.mem_cons_of_mem q hr)) _

/-! ### Lemmas about the ray maximizer -/

/-- `linspace` produces exactly `n` samples. -/
theorem linspace_length (a b : Pt3) (n : ℕ) : (linspace a b n).length = n := by
  unfold linspace
  rw [List.length_map, List.length_range]

/-- The `i`-th sample of `linspace`, for `i < n`. -/
theorem linspace_getD (a b : Pt3) (n i : ℕ) (hi : i < n) (d : Pt3) :
    (linspace a b n).getD i d =
      fun ax => a ax + (i : ℚ) * ((b ax - a ax) / ((n : ℚ) - 1)) := by
  unfold linspace
  rw [List.getD_eq_getElem?_getD, List.getElem?_map, List.getElem?_range hi]
  rfl

/-- The scan of `argmax` over the index range `[0, n)`: the running best is an
index below `n` (or the initial 0), holds a value at least every scanned
value, and strictly exceeds every value at an earlier index. -/
theorem argmax_foldl_spec (l : List ℚ) (n : ℕ) :
    ((List.range n).foldl (argmaxStep l) 0 = 0 ∨
        (List.range n).foldl (argmaxStep l) 0 < n) ∧
      (∀ j, j < n →
        l.getD j 0 ≤ l.getD ((List.range n).foldl (argmaxStep l) 0) 0) ∧
      (∀ j, j < (List.range n).foldl (argmaxStep l) 0 →
        l.getD j 0 < l.getD ((List.range n).foldl (argmaxStep l) 0) 0) := by
  induction n with
  | zero => simp
  | succ m ih =>
    rw [List.range_succ, List.foldl_append, List.foldl_cons, List.foldl_nil]
    obtain ⟨ihb, ihmax, ihfirst⟩ := ih
    by_cases hlt :
        l.getD ((List.range m).foldl (argmaxStep l) 0) 0 < l.getD m 0
    · rw [argmaxStep, if_pos hlt]
      refine ⟨Or.inr (Nat.lt_succ_self m), ?_, ?_⟩
      · intro j hj
        rcases Nat.lt_succ_iff_lt_or_eq.mp hj with h | h
        · exact le_of_lt (lt_of_le_of_lt (ihmax j h) hlt)
        · rw [h]
      · intro j hj
        exact lt_of_le_of_lt (ihmax j hj) hlt
    · rw [argmaxStep, if_neg hlt]
      refine ⟨?_, ?_, ihfirst⟩
      · rcases ihb with h | h
        · exact Or.inl h
        · exact Or.inr (Nat.lt_succ_of_lt h)
      · intro j hj
        rcases Nat.lt_succ_iff_lt_or_eq.mp hj with h | h
        · exact ihmax j h
        · rw [h]
          exact le_of_not_lt hlt

/-- `np.argmax` on a nonempty list: the result is a valid index whose value is
maximal, and every strictly earlier index holds a strictly smaller value
(first occurrence wins). -/
theorem argmax_spec (l : List ℚ) (hl : l.length ≠ 0) :
    argmax l < l.length ∧
      (∀ j, j < l.length → l.getD j 0 ≤ l.getD (argmax l) 0) ∧
      (∀ j, j < argmax l → l.getD j 0 < l.getD (argmax l) 0) := by
  obtain ⟨hb, hmax, hfirst⟩ := argmax_foldl_spec l l.length
  refine ⟨?_, hmax, hfirst⟩
  rcases hb with h | h
  · rw [argmax, h]
    exact Nat.pos_of_ne_zero hl
  · exact h

/-- `applyMask` on a successful masking stores the new volume next to the
untouched source. -/
theorem applyMask_ok (R : List Poly) (s : LayerState) (w : Volume)
    (h : maskVolume s.source R = .ok w) :
    applyMask R s = { source := s.source, masked := some w } := by
  unfold applyMask
  rw [h]

/-! ### Claims -/

/-- C10: masking with a region containing zero polygons returns the source
volume exactly unchanged (the empty polygon loop leaves the copied buffer
equal to the source data), resolving the spec's open `EmptyRegion` choice as
identity rather than "zero everywhere". -/
theorem mask_empty_region_identity (V : Volume) : maskVolume V [] = .ok V := rfl

/-- C9: masking never mutates the source volume (the state keeps its source
unchanged), and on a region of valid polygons it produces a new volume of the
same shape and scale whose data is the source data times the combined
per-polygon mask. -/
theorem mask_new_volume_frame (R : List Poly) (V : Volume)
    (hval : ∀ p ∈ R, (activeAxes p).length = 2) :
    (∀ s : LayerState, (applyMask R s).source = s.source) ∧
    ∃ W, maskVolume V R = .ok W ∧ W.shape = V.shape ∧ W.scale = V.scale ∧
      ∀ i, W.data i = V.data i * combinedMask V.shape R i := by
  constructor
  · intro s
    unfold applyMask
    cases h : maskVolume s.source R with
    | ok w => rfl
    | error e => rfl
  · refine ⟨Volume.mk V.shape V.scale
        (fun i => V.data i * combinedMask V.shape R i), ?_, rfl, rfl,
      fun i => rfl⟩
    unfold maskVolume
    rw [maskData_eq V.shape R hval V.data]

/-- C8: the masking engine is a deterministic pure function recomputed from
the source data on every invocation: the stored masked output depends only on
the source volume and polygon list (not on any previously stored masked
volume), and re-invoking the mask operation does not compound maskings. -/
theorem mask_pure_recompute (R : List Poly) (V W : Volume)
    (hok : maskVolume V R = .ok W) :
    ∀ m : Option Volume,
      applyMask R { source := V, masked := m } =
        { source := V, masked := some W } ∧
      applyMask R (applyMask R { source := V, masked := m }) =
        applyMask R { source := V, masked := m } := by
  intro m
  have h1 : applyMask R { source := V, masked := m } =
      { source := V, masked := some W } :=
    applyMask_ok R { source := V, masked := m } W hok
  refine ⟨h1, ?_⟩
  rw [h1]
  exact applyMask_ok R { source := V, masked := some W } W hok

/-- C2: a polygon whose vertices vary along all three axes, or along fewer
than two axes, makes the masking operation fail with the invalid-polygon-axes
error (reached as soon as the polygon loop meets it, all earlier polygons
being valid) rather than silently masking with an arbitrary plane choice. -/
theorem mask_invalid_polygon_axes (V : Volume) (R₁ R₂ : List Poly) (p : Poly)
    (hp : (activeAxes p).length ≠ 2)
    (h1 : ∀ q ∈ R₁, (activeAxes q).length = 2) :
    maskVolume V (R₁ ++ p :: R₂) = .error .invalidPolygonAxes := by
  unfold maskVolume
  rw [maskData_err V.shape R₁ R₂ p hp h1 V.data]

/-- C3: for a polygon constant along exactly one axis `k` (its active axes
being the other two), the masking operation multiplies the source by the
broadcast mask `polyMask`, and that mask is invariant along `k`: any two
voxel indices agreeing on all axes other than `k` receive the same mask
value, so every slice along `k` carries the identical 2D footprint. -/
theorem mask_invariant_along_degenerate_axis (V : Volume) (p : Poly)
    (a0 a1 k : Fin 3) (hax : activeAxes p = [a0, a1])
    (hk0 : k ≠ a0) (hk1 : k ≠ a1) :
    maskVolume V [p] = .ok (Volume.mk V.shape V.scale
        (fun i =>
          V.data i * (if polyMask V.shape p a0 a1 i then 1 else 0))) ∧
    ∀ i j : Ix, (∀ a : Fin 3, a ≠ k → i a = j a) →
      polyMask V.shape p a0 a1 i = polyMask V.shape p a0 a1 j := by
  constructor
  · unfold maskVolume
    rw [maskData_cons_ok V.shape p [] a0 a1 hax V.data]
    rfl
  · intro i j hij
    unfold polyMask
    rw [hij a0 (Ne.symm hk0), hij a1 (Ne.symm hk1)]

/-- C1 (amended): for any two valid polygons — in the same plane or in
different planes alike — the masking operation computes the pointwise product
of the two broadcast masks by sequential multiplication into one working
buffer; the union of two same-plane footprints is NOT retained (see the
counterexample `mask_union_not_retained`). -/
theorem mask_sequential_product (V : Volume) (A B : Poly)
    (hA : (activeAxes A).length = 2) (hB : (activeAxes B).length = 2) :
    ∃ W, maskVolume V [A, B] = .ok W ∧
      ∀ i, W.data i = V.data i * maskInd V.shape A i * maskInd V.shape B i := by
  have hval : ∀ p ∈ [A, B], (activeAxes p).length = 2 := by
    intro p hp
    rcases List.mem_cons.mp hp with rfl | hp'
    · exact hA
    · rcases List.mem_cons.mp hp' with rfl | hp''
      · exact hB
      · exact absurd hp'' (List.not_mem_nil p)
  refine ⟨Volume.mk V.shape V.scale
      (fun i => V.data i * combinedMask V.shape [A, B] i), ?_, ?_⟩
  · unfold maskVolume
    rw [maskData_eq V.shape [A, B] hval V.data]
  · intro i
    show V.data i * combinedMask V.shape [A, B] i = _
    rw [combinedMask_cons, combinedMask_cons]
    unfold combinedMask
    rw [List.map_nil, List.prod_nil]
    ring

/-- C1 (counterexample): two polygons in the same plane (`axis0 = 1`, active
axes `[1, 2]` for both) with disjoint footprints on the 10×10 grid; the voxel
`(1,2,2)` lies inside `polyA`'s footprint with source value 5, yet the masked
volume holds 0 there — the union of the two footprints is not retained, so
the claim as stated is false on this input. -/
theorem mask_union_not_retained :
    activeAxes polyA = activeAxes polyB ∧
    (∀ v ∈ polyA, v 0 = 1) ∧ (∀ v ∈ polyB, v 0 = 1) ∧
    (∀ r ∈ Finset.range 10, ∀ c ∈ Finset.range 10,
      ¬(maskInd vC.shape polyA ![1, r, c] = 1 ∧
        maskInd vC.shape polyB ![1, r, c] = 1)) ∧
    maskInd vC.shape polyA cIx = 1 ∧
    vC.data cIx = 5 ∧
    (maskVolume vC [polyA, polyB]).map (fun W => W.data cIx) = .ok 0 := by
  with_unfolding_all decide

/-- C4: the ray maximizer generates exactly 100 sample positions, evenly
spaced and inclusive of both endpoints: `sample[i] = near + i/99 * (far -
near)` for `i` in `0..99` (so `sample[0] = near` and `sample[99] = far`). -/
theorem ray_hundred_samples (near far : Pt3) :
    (linspace near far 100).length = 100 ∧
    ∀ i : ℕ, i < 100 → ∀ ax : Fin 3,
      (linspace near far 100).getD i (fun _ => 0) ax
        = near ax + ((i : ℚ) / 99) * (far ax - near ax) := by
  refine ⟨linspace_length near far 100, ?_⟩
  intro i hi ax
  simp only [linspace_getD near far 100 i hi]
  have h99 : ((100 : ℕ) : ℚ) - 1 = 99 := by norm_num
  rw [h99]
  ring

/-- C5: on a valid ray (3D display, add tool active, both endpoints present)
the ray maximizer appends exactly one of the 100 sample coordinates: the one
at index `argmax` of the interpolated intensities, which is a valid index
whose intensity is maximal, every strictly earlier sample having strictly
smaller intensity (first occurrence wins on ties). -/
theorem ray_argmax_first_max (nd : ℕ) (mode : String) (V : Volume)
    (n f : Pt3) (points : List Pt3) (hnd : nd ≠ 2) (hm : mode = "add") :
    let ray := linspace n f 100
    let ι := ray.map (sampleIntensity V)
    let idx := argmax ι
    mouseClick nd mode V (some n) (some f) points =
      (.added (ray.getD idx (fun _ => 0)),
        points ++ [ray.getD idx (fun _ => 0)]) ∧
    idx < 100 ∧
    (∀ j, j < 100 → ι.getD j 0 ≤ ι.getD idx 0) ∧
    (∀ j, j < idx → ι.getD j 0 < ι.getD idx 0) := by
  intro ray ι idx
  subst hm
  have hlen : ι.length = 100 := by
    show ((linspace n f 100).map (sampleIntensity V)).length = 100
    rw [List.length_map, linspace_length]
  obtain ⟨hidx, hmax, hfirst⟩ := argmax_spec ι (by rw [hlen]; norm_num)
  rw [hlen] at hidx hmax
  refine ⟨?_, hidx, hmax, hfirst⟩
  unfold mouseClick
  rw [if_neg hnd, if_neg (fun hh : ("add" : String) ≠ "add" => hh rfl)]

/-- C6: the ray maximizer never fails on out-of-bounds samples — with a valid
ray it always appends a coordinate — and any sample coordinate outside
`[0, shape-1]` on some axis receives interpolated intensity 0 (constant-zero
boundary: no wrap, no mirror, no clamp, no extrapolation). -/
theorem ray_out_of_bounds_zero (nd : ℕ) (mode : String) (V : Volume)
    (n f : Pt3) (points : List Pt3) (hnd : nd ≠ 2) (hm : mode = "add") :
    (∃ c : Pt3, mouseClick nd mode V (some n) (some f) points =
      (.added c, points ++ [c])) ∧
    ∀ c : Pt3, (∃ ax : Fin 3, c ax < 0 ∨ ((V.shape ax : ℚ) - 1) < c ax) →
      sampleIntensity V c = 0 := by
  constructor
  · subst hm
    refine ⟨(linspace n f 100).getD
      (argmax ((linspace n f 100).map (sampleIntensity V))) (fun _ => 0), ?_⟩
    unfold mouseClick
    rw [if_neg hnd, if_neg (fun hh : ("add" : String) ≠ "add" => hh rfl)]
  · intro c hc
    obtain ⟨ax, hax⟩ := hc
    have hb : inBounds V.shape c ≠ true := by
      intro hall
      unfold inBounds at hall
      rw [List.all_eq_true] at hall
      have h2 := hall ax (List.mem_finRange ax)
      rw [Bool.and_eq_true, decide_eq_true_eq, decide_eq_true_eq] at h2
      rcases hax with h | h
      · exact absurd h2.1 (not_le.mpr h)
      · exact absurd h2.2 (not_le.mpr h)
    unfold sampleIntensity
    rw [if_neg hb]

/-- C7: when either ray endpoint is absent (`None` from the bounding-box
intersection), the click handler rejects the input — the `InvalidRay`
condition — performing no sampling, no argmax, and no point append: the
points data is returned unchanged, whatever the volume. -/
theorem ray_rejects_missing_endpoints (nd : ℕ) (mode : String) (V : Volume)
    (near far : Option Pt3) (points : List Pt3) (hnd : nd ≠ 2)
    (hm : mode = "add") (h : near = none ∨ far = none) :
    mouseClick nd mode V near far points = (.invalidRay, points) := by
  subst hm
  unfold mouseClick
  rw [if_neg hnd, if_neg (fun hh : ("add" : String) ≠ "add" => hh rfl)]
  rcases h with rfl | rfl
  · rfl
  · cases near with
    | none => rfl
    | some x => rfl

/-! ### Witnesses -/

/-- Witness for C9 at the concrete volume `vC` and region `[polyA]`. -/
theorem mask_new_volume_frame_witness :
    (applyMask [polyA] { source := vC, masked := none }).source = vC ∧
    ∃ W, maskVolume vC [polyA] = .ok W ∧ W.shape = vC.shape ∧
      W.scale = vC.scale ∧
      ∀ i, W.data i = vC.data i * combinedMask vC.shape [polyA] i :=
  ⟨(mask_new_volume_frame [polyA] vC (by decide)).1
      { source := vC, masked := none },
    (mask_new_volume_frame [polyA] vC (by decide)).2⟩

/-- Witness for C8: masking `vC` with the empty region from a state with no
stored masked volume. -/
theorem mask_pure_recompute_witness :
    applyMask [] { source := vC, masked := none } =
      { source := vC, masked := some vC } ∧
    applyMask [] (applyMask [] { source := vC, masked := none }) =
      applyMask [] { source := vC, masked := none } :=
  mask_pure_recompute [] vC vC rfl none

/-- Witness for C2 at the polygon `polyD`, which varies along all three
axes. -/
theorem mask_invalid_polygon_axes_witness :
    (activeAxes polyD).length ≠ 2 ∧
    maskVolume vC [polyD] = .error .invalidPolygonAxes :=
  ⟨by decide,
    mask_invalid_polygon_axes vC [] [] polyD (by decide)
      (fun q hq => absurd hq (List.not_mem_nil q))⟩

/-- Witness for C3: `polyA` is constant along axis 0; two indices differing
only along axis 0 receive the same mask value. -/
theorem mask_invariant_along_degenerate_axis_witness :
    (maskVolume vC [polyA] = .ok (Volume.mk vC.shape vC.scale
      (fun i =>
        vC.data i * (if polyMask vC.shape polyA 1 2 i then 1 else 0)))) ∧
    polyMask vC.shape polyA 1 2 ![0, 2, 2] =
      polyMask vC.shape polyA 1 2 ![2, 2, 2] :=
  ⟨(mask_invariant_along_degenerate_axis vC polyA 1 2 0 (by decide)
      (by decide) (by decide)).1,
    (mask_invariant_along_degenerate_axis vC polyA 1 2 0 (by decide)
      (by decide) (by decide)).2 ![0, 2, 2] ![2, 2, 2] (by decide)⟩

/-- Witness for the amended C1 at `vC` with the two same-plane polygons. -/
theorem mask_sequential_product_witness :
    ∃ W, maskVolume vC [polyA, polyB] = .ok W ∧
      ∀ i, W.data i =
        vC.data i * maskInd vC.shape polyA i * maskInd vC.shape polyB i :=
  mask_sequential_product vC polyA polyB (by decide) (by decide)

/-- Witness for C4 at the concrete endpoints and sample index 37. -/
theorem ray_hundred_samples_witness :
    (linspace nearW farW 100).length = 100 ∧
    (37 : ℕ) < 100 ∧
    ∀ ax : Fin 3,
      (linspace nearW farW 100).getD 37 (fun _ => 0) ax
        = nearW ax + (((37 : ℕ) : ℚ) / 99) * (farW ax - nearW ax) :=
  ⟨(ray_hundred_samples nearW farW).1, by norm_num,
    (ray_hundred_samples nearW farW).2 37 (by norm_num)⟩

/-- Witness for C5 at the concrete volume `vC` and ray `nearW → farW`. -/
theorem ray_argmax_first_max_witness :
    let ray := linspace nearW farW 100
    let ι := ray.map (sampleIntensity vC)
    let idx := argmax ι
    mouseClick 3 "add" vC (some nearW) (some farW) [] =
      (.added (ray.getD idx (fun _ => 0)), [] ++ [ray.getD idx (fun _ => 0)]) ∧
    idx < 100 ∧
    (∀ j, j < 100 → ι.getD j 0 ≤ ι.getD idx 0) ∧
    (∀ j, j < idx → ι.getD j 0 < ι.getD idx 0) :=
  ray_argmax_first_max 3 "add" vC nearW farW [] (by decide) rfl

/-- Witness for C6: the ray `nearW → farW` leaves `vC`'s bounds, the click
still appends a coordinate, and the out-of-bounds coordinate `outPt` samples
to 0. -/
theorem ray_out_of_bounds_zero_witness :
    (∃ c : Pt3, mouseClick 3 "add" vC (some nearW) (some farW) [] =
      (.added c, [] ++ [c])) ∧
    (∃ ax : Fin 3, outPt ax < 0 ∨ ((vC.shape ax : ℚ) - 1) < outPt ax) ∧
    sampleIntensity vC outPt = 0 :=
  ⟨(ray_out_of_bounds_zero 3 "add" vC nearW farW [] (by decide) rfl).1,
    ⟨0, Or.inl (by norm_num [outPt])⟩,
    (ray_out_of_bounds_zero 3 "add" vC nearW farW [] (by decide) rfl).2 outPt
      ⟨0, Or.inl (by norm_num [outPt])⟩⟩

/-- Witness for C7: an absent near endpoint is rejected with the points data
unchanged. -/
theorem ray_rejects_missing_endpoints_witness :
    mouseClick 3 "add" vC none (some nearW) [] = (.invalidRay, []) :=
  ray_rejects_missing_endpoints 3 "add" vC none (some nearW) [] (by decide)
    rfl (Or.inl rfl)

end Synaptogram
